import Mathlib

/-!
Verification development for the HS321 Modbus RTU client library
(`src/HS321.cpp`, `src/HS321.h`).

Shallow embedding conventions:
* machine bytes (`uint8_t`) and registers (`uint16_t`) are `Nat` values;
  where the C source performs a narrowing cast, the embedding applies the
  corresponding `% 256` / `% 65536`;
* raw pointer + length buffers become `List Nat`; a possibly-null pointer
  becomes `Option (List Nat)` (with `none` for `nullptr`);
* hardware side effects (pin writes, serial writes) become an explicit
  `Action` trace returned by the functions that performed them;
* the serial input channel plus wall-clock time become an explicit
  environment: a list of poll iterations, each giving the `millis()` value
  observed during that iteration and the bytes available to be drained.
-/

namespace HS321

/-- `RS485Transmit` is `HIGH` in the source (`HS321.h`). -/
def RS485Transmit : Nat := 1

/-- `RS485Receive` is `LOW` in the source (`HS321.h`). -/
def RS485Receive : Nat := 0

/-- Modbus function code 0x03 (`CodeFunction::READ` in `HS321.h`). -/
def READ : Nat := 0x03

/-- Modbus function code 0x06 (`CodeFunction::WRITE_ONE`). -/
def WRITE_ONE : Nat := 0x06

/-- Modbus function code 0x10 (`CodeFunction::WRITE_RANGE`). -/
def WRITE_RANGE : Nat := 0x10

/-- `static_cast<uint8_t>(x >> 8)`: the high byte of a 16-bit quantity. -/
def hiByte (x : Nat) : Nat := (x >>> 8) % 256

/-- `static_cast<uint8_t>(x & 0xFF)`: the low byte of a 16-bit quantity. -/
def loByte (x : Nat) : Nat := x % 256

/-- One iteration of the inner CRC loop of `HS321::calculateCRC`:
`if (crc & 0x0001) crc = (crc >> 1) ^ 0xA001; else crc = crc >> 1;`. -/
def crcBitStep (crc : Nat) : Nat :=
  if crc &&& 0x0001 ≠ 0 then (crc >>> 1) ^^^ 0xA001 else crc >>> 1

/-- One iteration of the outer CRC loop of `HS321::calculateCRC`:
`crc ^= data[i]` (byte `data[i]` is a `uint8_t`, hence the `% 256`)
followed by eight inner-loop iterations. -/
def crcByteStep (crc b : Nat) : Nat :=
  crcBitStep^[8] (crc ^^^ (b % 256))

/-- `HS321::calculateCRC(const uint8_t *data, const uint8_t length)`.
`none` models `data == nullptr`; a list models the `length` bytes starting
at `data`.  A null pointer or zero length returns the sentinel `0xFFFF`;
otherwise the fold starts from the seed `0xFFFF`. -/
def calculateCRC : Option (List Nat) → Nat
  | none => 0xFFFF
  | some data => if data.length = 0 then 0xFFFF else data.foldl crcByteStep 0xFFFF

/-- The request-frame tail shared by every encoder: compute the CRC of the
body and append it low byte first
(`request[size-2] = crc & 0xFF; request[size-1] = (crc >> 8) & 0xFF;`). -/
def appendCRC (body : List Nat) : List Nat :=
  let crc := calculateCRC (some body)
  body ++ [loByte crc, hiByte crc]

/-- Hardware side effects performed by the source, in program order. -/
inductive Action where
  /-- `digitalWrite(pin, level)` on the RS485 direction pin. -/
  | pinWrite (pin level : Nat)
  /-- `pinMode(pin, OUTPUT)`. -/
  | pinModeOutput (pin : Nat)
  /-- `_serialPort->write(data, length)`. -/
  | serialWrite (data : List Nat)
  /-- `_serialPort->flush()`. -/
  | serialFlush
  /-- `_serialPort->begin(baud)`. -/
  | serialStart (baud : Nat)
  /-- `_serialDebug->begin(baud, SERIAL_8N1)`. -/
  | debugStart (baud : Nat)
deriving DecidableEq, Repr

/-- `HS321::sendData`: drive the direction pin to transmit, write the
frame, flush, and unconditionally drive the pin back to receive. -/
def sendData (pin : Nat) (data : List Nat) : List Action :=
  [Action.pinWrite pin RS485Transmit, Action.serialWrite data,
   Action.serialFlush, Action.pinWrite pin RS485Receive]

/-- The level written by the last `digitalWrite` to `pin` in a trace
(`none` when the trace never writes that pin). -/
def lastPinWrite (pin : Nat) (acts : List Action) : Option Nat :=
  acts.foldl
    (fun s a =>
      match a with
      | Action.pinWrite p l => if p = pin then some l else s
      | _ => s)
    none

/-- The polling loop of `HS321::receiveData`.  The environment is a list of
outer-loop iterations; each iteration records the `millis()` value `t`
observed during it and the bytes `avail` that `_serialPort` has available.
All `millis()` calls within one iteration are modelled as returning the
same `t` (the loop body runs fast relative to the millisecond clock), and
`millis() - lastByteTime` uses truncated `Nat` subtraction, which agrees
with the unsigned C subtraction for monotone time stamps.  When the
environment is exhausted with bytes still missing, the loop ends with the
partial buffer, exactly as the real loop does once a timeout expires with
no further traffic. -/
def recvLoop (totalTimeout charTimeout expLen : Nat) :
    List (Nat × List Nat) → Nat → List Nat → List Nat
  | [], _, acc => acc
  | (t, avail) :: rest, lastByteTime, acc =>
    if expLen ≤ acc.length then acc
    else if totalTimeout < t - lastByteTime then acc
    else
      -- inner drain: `while (available > 0 && bytesRead < length)`
      let k := min (expLen - acc.length) avail.length
      let acc2 := acc ++ avail.take k
      let lbt2 := if 0 < k then t else lastByteTime
      if acc2.length < expLen then
        if avail.length = k then -- `_serialPort->available() == 0`
          if charTimeout < t - lbt2 then acc2
          else recvLoop totalTimeout charTimeout expLen rest lbt2 acc2
        else recvLoop totalTimeout charTimeout expLen rest lbt2 acc2
      else acc2

/-- `HS321::receiveData(uint8_t* buffer, const size_t length)`.
`bufferValid = false` models `buffer == nullptr`.  `t0` is the `millis()`
value captured in `lastByteTime` before the loop.  The character timeout
is `ceil(_interCharTimeout * length / 1000)` in the source; since the
argument of `ceil` is already an integer division, it equals the plain
`Nat` division.  Returns the bytes drained into the buffer and the final
`bytesRead == length` test. -/
def receiveData (bufferValid : Bool) (expLen interCharTimeout totalTimeout t0 : Nat)
    (env : List (Nat × List Nat)) : List Nat × Bool :=
  if bufferValid = false ∨ expLen = 0 then ([], false)
  else
    let charTimeout := interCharTimeout * expLen / 1000
    let collected := recvLoop totalTimeout charTimeout expLen env t0 []
    (collected, collected.length == expLen)

/-- The 8-byte request frame built by `HS321::readParameters`
(slave address, function 0x03, start address, register count, CRC). -/
def readRequestFrame (slaveAddress startAddress numberRegisters : Nat) : List Nat :=
  appendCRC [slaveAddress % 256, READ, hiByte startAddress, loByte startAddress,
             hiByte numberRegisters, loByte numberRegisters]

/-- The value-extraction loop of `HS321::readParameters`:
`arrayValues[i] = (uint16(response[3 + i*2]) << 8) | response[3 + i*2 + 1]`
(the `numberRegisters == 1` special case computes the same expression at
`i = 0`). -/
def decodePairs (response : List Nat) (n : Nat) : List Nat :=
  (List.range n).map fun i =>
    ((response.getD (3 + i * 2) 0) <<< 8) ||| response.getD (3 + i * 2 + 1) 0

/-- The effect of the store loop `arrayValues[i] = vals[i]` for
`i < vals.length` on the caller's buffer contents `old`. -/
def storeFront (old vals : List Nat) : List Nat := vals ++ old.drop vals.length

/-- `HS321::readParameters`.  Arguments mirror the member call: the RS485
direction pin and the two configured timeouts come from the object state;
`arrayValues` is the caller's output buffer with its prior contents
(`none` for `nullptr`); `t0`/`env` drive the receiver.  Returns the
boolean result, the final contents of the caller's buffer, and the trace
of hardware actions performed. -/
def readParameters (pin totalTimeout interCharTimeout : Nat)
    (slaveAddress startAddress : Nat) (arrayValues : Option (List Nat))
    (numberRegisters t0 : Nat) (env : List (Nat × List Nat)) :
    Bool × Option (List Nat) × List Action :=
  if arrayValues = none ∨ numberRegisters = 0 then (false, arrayValues, [])
  else if 125 < numberRegisters then (false, arrayValues, [])
  else
    let request := readRequestFrame slaveAddress startAddress numberRegisters
    let acts := sendData pin request
    let responseSize := 5 + numberRegisters * 2
    let rcv := receiveData true responseSize interCharTimeout totalTimeout t0 env
    let response := rcv.1
    if rcv.2 = false then (false, arrayValues, acts)
    else if response.getD 0 0 ≠ slaveAddress % 256 ∨ response.getD 1 0 ≠ READ then
      (false, arrayValues, acts)
    else if response.getD 2 0 ≠ numberRegisters * 2 then (false, arrayValues, acts)
    else
      let receivedCRC :=
        ((response.getD (responseSize - 1) 0) <<< 8) ||| response.getD (responseSize - 2) 0
      let calculatedCRC := calculateCRC (some (response.take ((responseSize - 2) % 256)))
      if receivedCRC ≠ calculatedCRC then (false, arrayValues, acts)
      else
        (true, some (storeFront (arrayValues.getD []) (decodePairs response numberRegisters)),
         acts)

/-- Big-endian encoding of the register values in the 0x10 write payload:
`request[7 + i*2] = vals[i] >> 8; request[8 + i*2] = vals[i] & 0xFF`. -/
def beBytes : List Nat → List Nat
  | [] => []
  | v :: rest => hiByte v :: loByte v :: beBytes rest

/-- The request frame built by `HS321::writeParameters` once its input
validation has passed: function 0x06 for a single register, function 0x10
with a byte-count field (`uint8_t(numberRegisters * 2)`) and big-endian
payload otherwise. -/
def writeRequestFrame (slaveAddress startAddress : Nat) (vals : List Nat) : List Nat :=
  if vals.length = 1 then
    appendCRC [slaveAddress % 256, WRITE_ONE, hiByte startAddress, loByte startAddress,
               hiByte (vals.headD 0), loByte (vals.headD 0)]
  else
    appendCRC ([slaveAddress % 256, WRITE_RANGE, hiByte startAddress, loByte startAddress,
                hiByte vals.length, loByte vals.length, (vals.length * 2) % 256]
               ++ beBytes vals)

/-- `HS321::validateModbusResponse`.  `response` is the buffer,
`responseSize` the separately passed size.  The CRC recomputation passes
`responseSize - 2` to `calculateCRC`, whose length parameter is a
`uint8_t`, hence the `% 256`; the received CRC applies the
`static_cast<uint16_t>` to the shifted high byte. -/
def validateModbusResponse (response : List Nat) (responseSize expectedAddress expectedFunction : Nat) :
    Bool :=
  if responseSize < 4 then false
  else if response.getD 0 0 ≠ expectedAddress then false
  else if response.getD 1 0 = (expectedFunction ||| 0x80) then false
  else if response.getD 1 0 ≠ expectedFunction then false
  else
    let calculatedCRC := calculateCRC (some (response.take ((responseSize - 2) % 256)))
    let receivedCRC :=
      (((response.getD (responseSize - 1) 0) <<< 8) % 65536) ||| response.getD (responseSize - 2) 0
    calculatedCRC == receivedCRC

/-- `HS321::writeParameters`.  The register count is the length of the
passed value list (`none` models `arrayValues == nullptr`).  Mirrors the
source's guards: count 0, count above `MAX_MODBUS_REGISTERS = 123`, and
the static-buffer bound `requestSize > 7 + 123*2`; then builds and sends
the frame, receives the fixed 8-byte acknowledgement and validates it. -/
def writeParameters (pin totalTimeout interCharTimeout : Nat)
    (slaveAddress startAddress : Nat) (arrayValues : Option (List Nat))
    (t0 : Nat) (env : List (Nat × List Nat)) : Bool × List Action :=
  match arrayValues with
  | none => (false, [])
  | some vals =>
    let numberRegisters := vals.length
    if numberRegisters = 0 then (false, [])
    else if 123 < numberRegisters then (false, [])
    else
      let requestSize := if numberRegisters = 1 then 8 else 9 + numberRegisters * 2
      if 7 + 123 * 2 < requestSize then (false, [])
      else
        let request := writeRequestFrame slaveAddress startAddress vals
        let acts := sendData pin request
        let rcv := receiveData true 8 interCharTimeout totalTimeout t0 env
        if rcv.2 = false then (false, acts)
        else (validateModbusResponse rcv.1 8 (slaveAddress % 256) (request.getD 1 0), acts)

end HS321

/-- The mutable state of one `HS321` client instance that the boundary
operations consult: the `_initialized` flag set by `begin`, the
construction-time slave address and direction pin, and the timeouts
computed by `begin`. -/
structure HS321 where
  initialized : Bool
  slaveAddress : Nat
  pin : Nat
  totalTimeout : Nat
  interCharTimeout : Nat

namespace HS321

/-- `HS321::isInitialized`. -/
def isInitialized (st : HS321) : Bool := st.initialized

/-- `HS321::begin`.  `hasSerialPort = false` models
`_serialPort == nullptr`: the method marks the client not-ready and
performs no hardware configuration.  Otherwise it starts the ports,
configures the direction pin as an output defaulting to receive mode, and
computes the timeouts (`2000` and `3.5 * 10 * 1000000 / baud`, the latter
truncated by the cast to `unsigned long`).  Returns the new state and the
action trace. -/
def begin (slaveAddress : Nat) (hasSerialPort hasSerialDebug : Bool) (pin baud : Nat) :
    HS321 × List Action :=
  if hasSerialPort = false then
    ({ initialized := false, slaveAddress := slaveAddress, pin := pin,
       totalTimeout := 0, interCharTimeout := 0 }, [])
  else
    ({ initialized := true, slaveAddress := slaveAddress, pin := pin,
       totalTimeout := 2000, interCharTimeout := 35000000 / baud },
     (if hasSerialDebug then [Action.debugStart baud] else [])
       ++ [Action.serialStart baud, Action.pinModeOutput pin,
           Action.pinWrite pin RS485Receive])

/-- `HS321::buildParameterAddress`: `(uint16(group) << 8) | subAddress`,
truncated to `uint16` at the return; `subAddress` is a `uint8_t`. -/
def buildParameterAddress (group subAddress : Nat) : Nat :=
  (((group % 65536) <<< 8) ||| (subAddress % 256)) % 65536

/-- `HS321::readSingleParameter`: delegates to `readParameters` with
count 1 at the member slave address. -/
def readSingleParameter (st : HS321) (address : Nat) (value : Option (List Nat))
    (t0 : Nat) (env : List (Nat × List Nat)) : Bool × Option (List Nat) × List Action :=
  readParameters st.pin st.totalTimeout st.interCharTimeout st.slaveAddress address value 1 t0 env

/-- `HS321::writeSingleParameter`: delegates to `writeParameters` with a
one-element buffer at the member slave address. -/
def writeSingleParameter (st : HS321) (address value : Nat) (t0 : Nat)
    (env : List (Nat × List Nat)) : Bool × List Action :=
  writeParameters st.pin st.totalTimeout st.interCharTimeout st.slaveAddress address
    (some [value]) t0 env

/-- `HS321::readFaultDescription`: refuses when not initialized or the
out-pointer is null, otherwise reads register 0x8000. -/
def readFaultDescription (st : HS321) (faultCode : Option (List Nat)) (t0 : Nat)
    (env : List (Nat × List Nat)) : Bool × Option (List Nat) × List Action :=
  if isInitialized st = false ∨ faultCode = none then (false, faultCode, [])
  else readSingleParameter st 0x8000 faultCode t0 env

/-- `HS321::readRunningState`: refuses when not initialized or the
out-pointer is null, otherwise reads register 0x3000. -/
def readRunningState (st : HS321) (state : Option (List Nat)) (t0 : Nat)
    (env : List (Nat × List Nat)) : Bool × Option (List Nat) × List Action :=
  if isInitialized st = false ∨ state = none then (false, state, [])
  else readParameters st.pin st.totalTimeout st.interCharTimeout st.slaveAddress 0x3000
    state 1 t0 env

/-- `HS321::writeControlCommand`: refuses when not initialized, otherwise
writes the command value to register 0x2000. -/
def writeControlCommand (st : HS321) (command : Nat) (t0 : Nat)
    (env : List (Nat × List Nat)) : Bool × List Action :=
  if isInitialized st = false then (false, [])
  else writeSingleParameter st 0x2000 command t0 env

/-- `HS321::readParametersInGroups`. -/
def readParametersInGroups (st : HS321) (group numberGroup : Nat)
    (arrayValues : Option (List Nat)) (count t0 : Nat) (env : List (Nat × List Nat)) :
    Bool × Option (List Nat) × List Action :=
  if isInitialized st = false ∨ arrayValues = none ∨ count = 0 then (false, arrayValues, [])
  else readParameters st.pin st.totalTimeout st.interCharTimeout st.slaveAddress
    (buildParameterAddress group numberGroup) arrayValues count t0 env

/-- `HS321::readSingleGroupParameter`. -/
def readSingleGroupParameter (st : HS321) (group numberGroup : Nat)
    (value : Option (List Nat)) (t0 : Nat) (env : List (Nat × List Nat)) :
    Bool × Option (List Nat) × List Action :=
  if isInitialized st = false ∨ value = none then (false, value, [])
  else readSingleParameter st (buildParameterAddress group numberGroup) value t0 env

/-- `HS321::writeParametersInGroups`.  The source checks
`arrayData == nullptr || dataCount == 0`; with the list model the count is
the list's length. -/
def writeParametersInGroups (st : HS321) (group numberGroup : Nat)
    (arrayData : Option (List Nat)) (t0 : Nat) (env : List (Nat × List Nat)) :
    Bool × List Action :=
  if isInitialized st = false ∨ arrayData = none ∨ (arrayData.getD []).length = 0 then
    (false, [])
  else writeParameters st.pin st.totalTimeout st.interCharTimeout st.slaveAddress
    (buildParameterAddress group numberGroup) arrayData t0 env

/-- `HS321::writeSingleGroupParameter`. -/
def writeSingleGroupParameter (st : HS321) (group numberGroup value t0 : Nat)
    (env : List (Nat × List Nat)) : Bool × List Action :=
  if isInitialized st = false then (false, [])
  else writeSingleParameter st (buildParameterAddress group numberGroup) value t0 env

/-- The synthetic well-formed read response of claim C6: correct address,
function 0x03, byte count `n * 2`, the values big-endian from offset 3,
and a valid trailing CRC. -/
def mkReadResponse (slaveAddress n : Nat) (vals : List Nat) : List Nat :=
  appendCRC ([slaveAddress % 256, READ, n * 2] ++ beBytes vals)

/-- Modelled from the spec for comparison with `calculateCRC` (refinement
side of claim C2, spec §4.1): eight rounds of "if low bit set, shift right
and XOR 0xA001, else shift right". -/
def modbusRounds : Nat → Nat → Nat
  | c, 0 => c
  | c, j + 1 => modbusRounds (if c % 2 = 1 then (c / 2) ^^^ 0xA001 else c / 2) j

/-- Modelled from the spec for comparison with `calculateCRC` (refinement
side of claim C2, spec §4.1): for each byte, XOR it into the running value
then perform the eight rounds. -/
def modbusCRC16Spec : List Nat → Nat → Nat
  | [], c => c
  | b :: rest, c => modbusCRC16Spec rest (modbusRounds (c ^^^ b) 8)

theorem crcBitStep_eq (c : Nat) :
    crcBitStep c = if c % 2 = 1 then (c / 2) ^^^ 0xA001 else c / 2 := by
  unfold crcBitStep
  rw [Nat.and_one_is_mod, Nat.shiftRight_eq_div_pow, pow_one]
  rcases Nat.mod_two_eq_zero_or_one c with h | h <;> simp [h]

theorem iterate_crcBitStep (j c : Nat) : crcBitStep^[j] c = modbusRounds c j := by
  induction j generalizing c with
  | zero => rfl
  | succ j ih =>
    rw [Function.iterate_succ_apply, ih, crcBitStep_eq]
    rfl

theorem foldl_crcByteStep_eq_spec (l : List Nat) (c : Nat) (hl : ∀ b ∈ l, b < 256) :
    l.foldl crcByteStep c = modbusCRC16Spec l c := by
  induction l generalizing c with
  | nil => rfl
  | cons b rest ih =>
    have hb : b < 256 := hl b (by simp)
    rw [List.foldl_cons, ih _ (fun x hx => hl x (by simp [hx]))]
    show modbusCRC16Spec rest (crcByteStep c b) = modbusCRC16Spec (b :: rest) c
    rw [crcByteStep, Nat.mod_eq_of_lt hb, iterate_crcBitStep]
    rfl

theorem crcBitStep_lt (c : Nat) (h : c < 65536) : crcBitStep c < 65536 := by
  have hdiv : c >>> 1 < 65536 := by
    rw [Nat.shiftRight_eq_div_pow, pow_one]; omega
  rw [crcBitStep]
  split
  · have : (65536 : Nat) = 2 ^ 16 := by norm_num
    rw [this] at hdiv ⊢
    exact Nat.xor_lt_two_pow hdiv (by norm_num)
  · exact hdiv

theorem crcByteStep_lt (c b : Nat) (h : c < 65536) : crcByteStep c b < 65536 := by
  rw [crcByteStep]
  have hx : c ^^^ b % 256 < 65536 := by
    have : (65536 : Nat) = 2 ^ 16 := by norm_num
    rw [this]
    exact Nat.xor_lt_two_pow (by omega) (by have := Nat.mod_lt b (y := 256) (by omega); omega)
  generalize c ^^^ b % 256 = d at hx
  clear h
  induction 8 generalizing d with
  | zero => simpa using hx
  | succ j ih =>
    rw [Function.iterate_succ_apply]
    exact ih _ (crcBitStep_lt _ hx)

theorem foldl_crcByteStep_lt (l : List Nat) :
    ∀ c : Nat, c < 65536 → l.foldl crcByteStep c < 65536 := by
  induction l with
  | nil => intro c hc; simpa using hc
  | cons b rest ih =>
    intro c hc
    rw [List.foldl_cons]
    exact ih _ (crcByteStep_lt c b hc)

theorem calculateCRC_lt (d : Option (List Nat)) : calculateCRC d < 65536 := by
  match d with
  | none => decide
  | some l =>
    rw [calculateCRC]
    split
    · decide
    · exact foldl_crcByteStep_lt l 0xFFFF (by decide)

theorem shiftLeft8_lor (a b : Nat) (hb : b < 256) : (a <<< 8) ||| b = 256 * a + b := by
  rw [Nat.shiftLeft_eq]
  have h := Nat.mul_add_lt_is_or (b := b) (i := 8) (by simpa using hb) a
  calc a * 2 ^ 8 ||| b = 2 ^ 8 * a ||| b := by rw [Nat.mul_comm]
    _ = 2 ^ 8 * a + b := h.symm
    _ = 256 * a + b := by norm_num

theorem hiByte_eq_div (c : Nat) (h : c < 65536) : hiByte c = c / 256 := by
  rw [hiByte, Nat.shiftRight_eq_div_pow]
  have : c / 2 ^ 8 < 256 := by
    rw [Nat.div_lt_iff_lt_mul (by norm_num)]; omega
  rw [Nat.mod_eq_of_lt this]
  norm_num

theorem crc_recombine (c : Nat) (h : c < 65536) : ((hiByte c) <<< 8) ||| loByte c = c := by
  rw [loByte, shiftLeft8_lor _ _ (Nat.mod_lt _ (by norm_num)), hiByte_eq_div c h]
  omega

/-- C2: for every non-empty byte sequence, `calculateCRC` computes the
standard Modbus CRC16 exactly as the specification words it (seed 0xFFFF,
per byte XOR then eight shift-and-XOR-0xA001 rounds), and a null pointer
or a zero length yields the sentinel 0xFFFF instead of crashing. -/
theorem calculateCRC_spec (l : List Nat) (hne : l ≠ []) (hb : ∀ b ∈ l, b < 256) :
    calculateCRC (some l) = modbusCRC16Spec l 0xFFFF
    ∧ calculateCRC none = 0xFFFF ∧ calculateCRC (some []) = 0xFFFF := by
  refine ⟨?_, rfl, rfl⟩
  rw [calculateCRC, if_neg (by simpa using hne)]
  exact foldl_crcByteStep_eq_spec l _ hb

/-- Witness for C2 at the standard Modbus test vector `01 03 00 00 00 01`
(whose CRC is 0x0A84, transmitted `84 0A`). -/
theorem calculateCRC_spec_witness :
    calculateCRC (some [1, 3, 0, 0, 0, 1]) = modbusCRC16Spec [1, 3, 0, 0, 0, 1] 0xFFFF
    ∧ calculateCRC none = 0xFFFF ∧ calculateCRC (some []) = 0xFFFF :=
  calculateCRC_spec [1, 3, 0, 0, 0, 1] (by decide) (by decide)

/-- C8: `sendData` drives the direction pin to transmit as its first
action, performs the serial write strictly after that, and the last write
to the pin in its trace — performed unconditionally after the flush — is
back to receive mode; `begin` (with a serial port present) also leaves the
pin in receive mode as the default. -/
theorem sendData_direction (pin baud sa : Nat) (data : List Nat) (hasDebug : Bool) :
    lastPinWrite pin (sendData pin data) = some RS485Receive
    ∧ (sendData pin data).head? = some (Action.pinWrite pin RS485Transmit)
    ∧ (sendData pin data)[1]? = some (Action.serialWrite data)
    ∧ (sendData pin data).getLast? = some (Action.pinWrite pin RS485Receive)
    ∧ lastPinWrite pin (begin sa true hasDebug pin baud).2 = some RS485Receive
    ∧ (begin sa true hasDebug pin baud).1.initialized = true := by
  refine ⟨?_, rfl, rfl, rfl, ?_, ?_⟩
  · simp [lastPinWrite, sendData]
  · cases hasDebug <;> simp [lastPinWrite, begin]
  · simp [begin]

set_option maxRecDepth 10000 in
/-- C1 (documents the code bug): `writeParameters` rejects a register
count of 123 before any I/O, because `MAX_REQUEST_SIZE` is computed as
`7 + 123*2 = 253` while a 123-register request needs `9 + 123*2 = 255`
bytes; count 122 is the largest multi-register count that is actually
encoded and transmitted.  Counts 0 and above 123, and a null buffer, are
rejected before any I/O as the claim states. -/
theorem writeParameters_count123_rejected :
    writeParameters 2 2000 3645 1 0 (some (List.replicate 123 0)) 0 [] = (false, [])
    ∧ (writeParameters 2 2000 3645 1 0 (some (List.replicate 122 0)) 0 []).2
        = sendData 2 (writeRequestFrame 1 0 (List.replicate 122 0))
    ∧ writeParameters 2 2000 3645 1 0 (some []) 0 [] = (false, [])
    ∧ writeParameters 2 2000 3645 1 0 (some (List.replicate 124 0)) 0 [] = (false, [])
    ∧ writeParameters 2 2000 3645 1 0 none 0 [] = (false, []) := by
  refine ⟨by decide, ?_, by decide, by decide, rfl⟩
  have h : writeParameters 2 2000 3645 1 0 (some (List.replicate 122 0)) 0 []
      = (false, sendData 2 (writeRequestFrame 1 0 (List.replicate 122 0))) := by
    simp [writeParameters, receiveData, recvLoop]
  rw [h]

theorem recvLoop_length_le (tt ct expLen : Nat) :
    ∀ (env : List (Nat × List Nat)) (lbt : Nat) (acc : List Nat),
      acc.length ≤ expLen → (recvLoop tt ct expLen env lbt acc).length ≤ expLen := by
  intro env
  induction env with
  | nil => intro lbt acc h; simpa [recvLoop] using h
  | cons e rest ih =>
    intro lbt acc h
    obtain ⟨t, avail⟩ := e
    rw [recvLoop]
    have hacc2 : (acc ++ avail.take (min (expLen - acc.length) avail.length)).length ≤ expLen := by
      simp only [List.length_append, List.length_take]
      omega
    show (if expLen ≤ acc.length then acc
      else if tt < t - lbt then acc
      else
        if (acc ++ avail.take (min (expLen - acc.length) avail.length)).length < expLen then
          if avail.length = min (expLen - acc.length) avail.length then
            if ct < t - (if 0 < min (expLen - acc.length) avail.length then t else lbt)
            then acc ++ avail.take (min (expLen - acc.length) avail.length)
            else recvLoop tt ct expLen rest
              (if 0 < min (expLen - acc.length) avail.length then t else lbt)
              (acc ++ avail.take (min (expLen - acc.length) avail.length))
          else recvLoop tt ct expLen rest
            (if 0 < min (expLen - acc.length) avail.length then t else lbt)
            (acc ++ avail.take (min (expLen - acc.length) avail.length))
        else acc ++ avail.take (min (expLen - acc.length) avail.length)).length ≤ expLen
    split
    · exact h
    split
    · exact h
    split
    · repeat' split
      all_goals first
        | exact hacc2
        | exact ih _ _ hacc2
    · exact hacc2

/-- C5: `receiveData` succeeds exactly when the collected byte count
equals the expected length (a partial buffer at loop exit yields `false`),
it never collects more than the expected length, and a null buffer or a
zero expected length fails immediately with nothing read from the
channel. -/
theorem receiveData_success_iff (bv : Bool) (expLen ict tt t0 : Nat)
    (env : List (Nat × List Nat)) :
    ((receiveData bv expLen ict tt t0 env).2 = true
      ↔ (bv = true ∧ 0 < expLen
          ∧ (receiveData bv expLen ict tt t0 env).1.length = expLen))
    ∧ ((bv = false ∨ expLen = 0) → receiveData bv expLen ict tt t0 env = ([], false))
    ∧ (receiveData bv expLen ict tt t0 env).1.length ≤ expLen := by
  unfold receiveData
  by_cases h : bv = false ∨ expLen = 0
  · rw [if_pos h]
    refine ⟨?_, fun _ => rfl, by simp⟩
    simp only [show ((([], false) : List Nat × Bool)).2 = false from rfl]
    constructor
    · intro hfalse; cases hfalse
    · rintro ⟨hbv, hpos, -⟩
      rcases h with h | h
      · rw [hbv] at h; cases h
      · omega
  · rw [if_neg h]
    push_neg at h
    obtain ⟨hbv, hlen⟩ := h
    refine ⟨?_, fun hc => absurd hc (by push_neg; exact ⟨hbv, hlen⟩), ?_⟩
    · simp only [beq_iff_eq]
      constructor
      · intro hq
        exact ⟨by revert hbv; cases bv <;> simp, Nat.pos_of_ne_zero hlen, by simpa using hq⟩
      · rintro ⟨-, -, hq⟩
        simpa using hq
    · exact recvLoop_length_le tt _ expLen env t0 [] (by simp)

/-- Witness for C5: a channel delivering exactly three bytes in one poll
iteration satisfies the success criterion. -/
theorem receiveData_success_iff_witness :
    ((receiveData true 3 3645 2000 0 [(0, [9, 8, 7])]).2 = true
      ↔ (true = true ∧ 0 < 3
          ∧ (receiveData true 3 3645 2000 0 [(0, [9, 8, 7])]).1.length = 3))
    ∧ ((true = false ∨ 3 = 0) → receiveData true 3 3645 2000 0 [(0, [9, 8, 7])] = ([], false))
    ∧ (receiveData true 3 3645 2000 0 [(0, [9, 8, 7])]).1.length ≤ 3 :=
  receiveData_success_iff true 3 3645 2000 0 [(0, [9, 8, 7])]

/-- C9: when initialization failed (`begin` saw a null serial channel and
marked the client not-ready) or `begin` was never run, every exposed
boundary operation returns `false` with an empty action trace, i.e.
without attempting any I/O on the channel; `begin` with no serial port
itself performs no hardware action and leaves the flag unset. -/
theorem notReady_refuses_io (st : HS321) (h : st.initialized = false)
    (fc stt arr v : Option (List Nat)) (group ng count cmd value t0 sa pin baud : Nat)
    (hasDebug : Bool) (env : List (Nat × List Nat)) :
    readFaultDescription st fc t0 env = (false, fc, [])
    ∧ readRunningState st stt t0 env = (false, stt, [])
    ∧ writeControlCommand st cmd t0 env = (false, [])
    ∧ readParametersInGroups st group ng arr count t0 env = (false, arr, [])
    ∧ readSingleGroupParameter st group ng v t0 env = (false, v, [])
    ∧ writeParametersInGroups st group ng arr t0 env = (false, [])
    ∧ writeSingleGroupParameter st group ng value t0 env = (false, [])
    ∧ (begin sa false hasDebug pin baud).1.initialized = false
    ∧ (begin sa false hasDebug pin baud).2 = [] := by
  simp [readFaultDescription, readRunningState, writeControlCommand, readParametersInGroups,
        readSingleGroupParameter, writeParametersInGroups, writeSingleGroupParameter,
        isInitialized, begin, h]

/-- Witness for C9 at a concrete not-ready state. -/
theorem notReady_refuses_io_witness :
    readFaultDescription ⟨false, 1, 2, 0, 0⟩ (some [0]) 0 [] = (false, some [0], [])
    ∧ readRunningState ⟨false, 1, 2, 0, 0⟩ (some [0]) 0 [] = (false, some [0], [])
    ∧ writeControlCommand ⟨false, 1, 2, 0, 0⟩ 5 0 [] = (false, [])
    ∧ readParametersInGroups ⟨false, 1, 2, 0, 0⟩ 12 0 (some [0]) 1 0 [] = (false, some [0], [])
    ∧ readSingleGroupParameter ⟨false, 1, 2, 0, 0⟩ 12 0 (some [0]) 0 [] = (false, some [0], [])
    ∧ writeParametersInGroups ⟨false, 1, 2, 0, 0⟩ 12 0 (some [0]) 0 [] = (false, [])
    ∧ writeSingleGroupParameter ⟨false, 1, 2, 0, 0⟩ 12 0 7 0 [] = (false, [])
    ∧ (begin 1 false true 2 9600).1.initialized = false
    ∧ (begin 1 false true 2 9600).2 = [] :=
  notReady_refuses_io ⟨false, 1, 2, 0, 0⟩ rfl (some [0]) (some [0]) (some [0]) (some [0])
    12 0 1 5 7 0 1 2 9600 true []

set_option maxRecDepth 10000 in
/-- Counterexample to C4 as frozen: `calculateCRC`'s length parameter is a
`uint8_t`, so for a 258-byte response the CRC is recomputed over
`(258 - 2) % 256 = 0` bytes, which returns the sentinel 0xFFFF; a response
ending in `FF FF` with matching address and function then validates even
though the CRC16 over all bytes except the last two does not match the
stored little-endian CRC. -/
theorem validateModbusResponse_truncation_cex :
    validateModbusResponse (([1, 3] ++ List.replicate 254 0) ++ [255, 255]) 258 1 3 = true
    ∧ calculateCRC (some ((([1, 3] ++ List.replicate 254 0) ++ [255, 255]).take 256))
        ≠ 256 * ((([1, 3] ++ List.replicate 254 0) ++ [255, 255]).getD 257 0)
          + (([1, 3] ++ List.replicate 254 0) ++ [255, 255]).getD 256 0 := by
  have htake : (([1, 3] ++ List.replicate 254 0) ++ [255, 255]).take 256
      = [1, 3] ++ List.replicate 254 0 := List.take_left' (by simp)
  have hsplit : (List.replicate 254 0 : List Nat)
      = List.replicate 32 0 ++ (List.replicate 32 0 ++ (List.replicate 32 0
        ++ (List.replicate 32 0 ++ (List.replicate 32 0 ++ (List.replicate 32 0
        ++ (List.replicate 32 0 ++ List.replicate 30 0)))))) := by
    decide
  have hcrc : calculateCRC (some ([1, 3] ++ List.replicate 254 0)) = 39053 := by
    rw [calculateCRC, if_neg (by simp)]
    rw [hsplit, List.foldl_append, List.foldl_append, List.foldl_append, List.foldl_append,
        List.foldl_append, List.foldl_append, List.foldl_append, List.foldl_append]
    have e1 : List.foldl crcByteStep 65535 [1, 3] = 8512 := by decide
    have e2 : List.foldl crcByteStep 8512 (List.replicate 32 0) = 53941 := by decide
    have e3 : List.foldl crcByteStep 53941 (List.replicate 32 0) = 14449 := by decide
    have e4 : List.foldl crcByteStep 14449 (List.replicate 32 0) = 46014 := by decide
    have e5 : List.foldl crcByteStep 46014 (List.replicate 32 0) = 6884 := by decide
    have e6 : List.foldl crcByteStep 6884 (List.replicate 32 0) = 15580 := by decide
    have e7 : List.foldl crcByteStep 15580 (List.replicate 32 0) = 36258 := by decide
    have e8 : List.foldl crcByteStep 36258 (List.replicate 32 0) = 22027 := by decide
    have e9 : List.foldl crcByteStep 22027 (List.replicate 30 0) = 39053 := by decide
    rw [show (0xFFFF : Nat) = 65535 from rfl, e1, e2, e3, e4, e5, e6, e7, e8, e9]
  have hgetD : ∀ i : Nat, (([1, 3] ++ List.replicate 254 0) ++ [255, 255]).getD (256 + i) 0
      = ([255, 255] : List Nat).getD i 0 := by
    intro i
    rw [List.getD_eq_getElem?_getD, List.getD_eq_getElem?_getD,
        List.getElem?_append_right (by simp)]
    simp
  constructor
  · rw [validateModbusResponse, if_neg (by omega)]
    rw [if_neg (by simp)]
    rw [if_neg (by simp)]
    rw [if_neg (by simp)]
    show (calculateCRC _ == _) = true
    rw [show (258 - 2) % 256 = 0 by decide, List.take_zero]
    have h257 := hgetD 1
    have h256 := hgetD 0
    rw [show (258 - 1 : Nat) = 256 + 1 from rfl, show (258 - 2 : Nat) = 256 + 0 from rfl,
        h257, h256]
    decide
  · rw [htake, hcrc]
    have h257 := hgetD 1
    have h256 := hgetD 0
    rw [show (257 : Nat) = 256 + 1 from rfl, show (256 : Nat) = 256 + 0 from rfl] at *
    rw [h257, h256]
    decide

/-- C4 as amended: `validateModbusResponse` returns `true` iff the length
is at least 4, the first byte equals the expected address, the second byte
equals the expected function code and is not the exception marker
`expectedFunction | 0x80`, and the CRC16 recomputed over the first
`(responseLength - 2) mod 256` bytes — the CRC routine receives the length
in a `uint8_t`, so for `responseLength ≤ 257` this is all bytes except the
last two — equals the CRC stored little-endian (low byte first) in the
last two bytes. -/
theorem validateModbusResponse_spec (response : List Nat) (responseSize ea ef : Nat)
    (hlen : response.length = responseSize) (hb : ∀ b ∈ response, b < 256) :
    validateModbusResponse response responseSize ea ef = true
      ↔ (4 ≤ responseSize ∧ response.getD 0 0 = ea
         ∧ response.getD 1 0 ≠ (ef ||| 0x80) ∧ response.getD 1 0 = ef
         ∧ calculateCRC (some (response.take ((responseSize - 2) % 256)))
             = 256 * response.getD (responseSize - 1) 0
               + response.getD (responseSize - 2) 0) := by
  unfold validateModbusResponse
  split_ifs with h4 h0 hex hf
  · simp only [Bool.false_eq_true, false_iff]
    rintro ⟨hge, -⟩
    omega
  · simp only [Bool.false_eq_true, false_iff]
    rintro ⟨-, he, -⟩
    exact h0 he
  · simp only [Bool.false_eq_true, false_iff]
    rintro ⟨-, -, hne, -⟩
    exact hne hex
  · simp only [Bool.false_eq_true, false_iff]
    rintro ⟨-, -, -, he, -⟩
    exact hf he
  · push_neg at h0 hf
    have hb1 : response.getD (responseSize - 1) 0 < 256 := by
      have hidx : responseSize - 1 < response.length := by omega
      rw [List.getD_eq_getElem?_getD, List.getElem?_eq_getElem hidx]
      exact hb _ (List.getElem_mem _)
    have hb2 : response.getD (responseSize - 2) 0 < 256 := by
      have hidx : responseSize - 2 < response.length := by omega
      rw [List.getD_eq_getElem?_getD, List.getElem?_eq_getElem hidx]
      exact hb _ (List.getElem_mem _)
    have hmod : ((response.getD (responseSize - 1) 0) <<< 8) % 65536
        = (response.getD (responseSize - 1) 0) <<< 8 := by
      apply Nat.mod_eq_of_lt
      rw [Nat.shiftLeft_eq]
      omega
    simp only [hmod, shiftLeft8_lor _ _ hb2, beq_iff_eq]
    constructor
    · intro hc
      exact ⟨by omega, h0, hex, hf, hc⟩
    · rintro ⟨-, -, -, -, hc⟩
      exact hc

/-- Witness for C4's amended theorem at a concrete valid 7-byte read
response for one register with value 100. -/
theorem validateModbusResponse_spec_witness :
    validateModbusResponse [1, 3, 2, 0, 100, 185, 175] 7 1 3 = true
      ↔ (4 ≤ 7 ∧ ([1, 3, 2, 0, 100, 185, 175] : List Nat).getD 0 0 = 1
         ∧ ([1, 3, 2, 0, 100, 185, 175] : List Nat).getD 1 0 ≠ (3 ||| 0x80)
         ∧ ([1, 3, 2, 0, 100, 185, 175] : List Nat).getD 1 0 = 3
         ∧ calculateCRC (some (([1, 3, 2, 0, 100, 185, 175] : List Nat).take ((7 - 2) % 256)))
             = 256 * ([1, 3, 2, 0, 100, 185, 175] : List Nat).getD (7 - 1) 0
               + ([1, 3, 2, 0, 100, 185, 175] : List Nat).getD (7 - 2) 0) :=
  validateModbusResponse_spec [1, 3, 2, 0, 100, 185, 175] 7 1 3 (by decide) (by decide)

/-- C3: for any register count from 1 to 125, `readParameters` transmits
exactly the 8-byte frame `[addr][0x03][startHi][startLo][countHi][countLo]`
followed by the CRC16 of those six bytes, low byte first; a count of 0, a
count above 125, or a null output buffer returns `false` with no action
performed on the hardware. -/
theorem readParameters_request_frame (pin tt ict sa st n t0 : Nat)
    (env : List (Nat × List Nat)) (a : List Nat) (h1 : 1 ≤ n) (h2 : n ≤ 125) :
    (readParameters pin tt ict sa st (some a) n t0 env).2.2
        = sendData pin (readRequestFrame sa st n)
    ∧ readRequestFrame sa st n
        = [sa % 256, READ, hiByte st, loByte st, hiByte n, loByte n,
           loByte (calculateCRC
             (some [sa % 256, READ, hiByte st, loByte st, hiByte n, loByte n])),
           hiByte (calculateCRC
             (some [sa % 256, READ, hiByte st, loByte st, hiByte n, loByte n]))]
    ∧ (readRequestFrame sa st n).length = 8
    ∧ readParameters pin tt ict sa st (some a) 0 t0 env = (false, some a, [])
    ∧ (∀ m, 125 < m → readParameters pin tt ict sa st (some a) m t0 env = (false, some a, []))
    ∧ (∀ m, readParameters pin tt ict sa st none m t0 env = (false, none, [])) := by
  refine ⟨?_, rfl, rfl, by simp [readParameters], ?_, ?_⟩
  · unfold readParameters
    rw [if_neg (by simp; omega), if_neg (by omega)]
    dsimp only
    repeat' split
    all_goals rfl
  · intro m hm
    unfold readParameters
    rw [if_neg (by simp; omega), if_pos hm]
  · intro m
    simp [readParameters]

/-- Witness for C3 at the boundary count 125. -/
theorem readParameters_request_frame_witness :
    (readParameters 2 2000 3645 1 4096 (some [0]) 125 0 []).2.2
        = sendData 2 (readRequestFrame 1 4096 125)
    ∧ readRequestFrame 1 4096 125
        = [1 % 256, READ, hiByte 4096, loByte 4096, hiByte 125, loByte 125,
           loByte (calculateCRC
             (some [1 % 256, READ, hiByte 4096, loByte 4096, hiByte 125, loByte 125])),
           hiByte (calculateCRC
             (some [1 % 256, READ, hiByte 4096, loByte 4096, hiByte 125, loByte 125]))]
    ∧ (readRequestFrame 1 4096 125).length = 8
    ∧ readParameters 2 2000 3645 1 4096 (some [0]) 0 0 [] = (false, some [0], [])
    ∧ (∀ m, 125 < m → readParameters 2 2000 3645 1 4096 (some [0]) m 0 [] = (false, some [0], []))
    ∧ (∀ m, readParameters 2 2000 3645 1 4096 none m 0 [] = (false, none, [])) :=
  readParameters_request_frame 2 2000 3645 1 4096 125 0 [] [0] (by decide) (by decide)

/-- C10: whenever `readParameters` returns `false` — for any input and any
channel behaviour — the caller's output buffer still holds exactly its
prior contents: values are stored only after every validation check has
passed. -/
theorem readParameters_failure_keeps_buffer (pin tt ict sa st n t0 : Nat)
    (arr : Option (List Nat)) (env : List (Nat × List Nat))
    (h : (readParameters pin tt ict sa st arr n t0 env).1 = false) :
    (readParameters pin tt ict sa st arr n t0 env).2.1 = arr := by
  revert h
  unfold readParameters
  dsimp only
  repeat' split
  all_goals intro h
  all_goals first
    | rfl
    | simp at h

/-- Witness for C10 at a concrete failing call (count 0). -/
theorem readParameters_failure_keeps_buffer_witness :
    (readParameters 2 2000 3645 1 4096 (some [7, 7]) 0 0 []).2.1 = some [7, 7] :=
  readParameters_failure_keeps_buffer 2 2000 3645 1 4096 0 0 (some [7, 7]) [] (by decide)

theorem beBytes_length (vals : List Nat) : (beBytes vals).length = 2 * vals.length := by
  induction vals with
  | nil => rfl
  | cons v rest ih =>
    simp only [beBytes, List.length_cons, ih]
    omega

theorem getD_append_of_lt (l l2 : List Nat) (i : Nat) (h : i < l.length) :
    (l ++ l2).getD i 0 = l.getD i 0 := by
  rw [List.getD_eq_getElem?_getD, List.getD_eq_getElem?_getD, List.getElem?_append_left h]

theorem getD_append_add (l l2 : List Nat) (i : Nat) :
    (l ++ l2).getD (l.length + i) 0 = l2.getD i 0 := by
  rw [List.getD_eq_getElem?_getD, List.getD_eq_getElem?_getD,
      List.getElem?_append_right (by omega)]
  congr 2
  omega

theorem beBytes_getD (vals : List Nat) (i : Nat) (h : i < vals.length) :
    (beBytes vals).getD (i * 2) 0 = hiByte (vals.getD i 0)
    ∧ (beBytes vals).getD (i * 2 + 1) 0 = loByte (vals.getD i 0) := by
  induction vals generalizing i with
  | nil => simp at h
  | cons v rest ih =>
    cases i with
    | zero => exact ⟨rfl, rfl⟩
    | succ i =>
      have hi : i < rest.length := by simpa using h
      have e1 : (i + 1) * 2 = i * 2 + 1 + 1 := by ring
      have e2 : (i + 1) * 2 + 1 = i * 2 + 1 + 1 + 1 := by ring
      constructor
      · rw [e1]
        simpa [beBytes] using (ih i hi).1
      · rw [e2]
        simpa [beBytes] using (ih i hi).2

/-- C7: for write requests that pass the input validation of
`writeParameters`, a count of exactly 1 yields the 8-byte function-0x06
frame `[addr][0x06][addrHi][addrLo][valHi][valLo][crcLo][crcHi]`, and a
count above 1 yields the function-0x10 frame with the register count, the
byte count `count * 2`, each value encoded big-endian (high byte at offset
`7 + 2i`, low byte at `8 + 2i`), and the CRC appended low byte first in
both cases. -/
theorem writeRequestFrame_spec (sa st : Nat) (vals : List Nat)
    (h1 : 1 ≤ vals.length) (h2 : vals.length ≤ 123)
    (h3 : (if vals.length = 1 then 8 else 9 + vals.length * 2) ≤ 7 + 123 * 2) :
    (vals.length = 1 →
      writeRequestFrame sa st vals
        = [sa % 256, WRITE_ONE, hiByte st, loByte st, hiByte (vals.headD 0),
           loByte (vals.headD 0),
           loByte (calculateCRC (some [sa % 256, WRITE_ONE, hiByte st, loByte st,
             hiByte (vals.headD 0), loByte (vals.headD 0)])),
           hiByte (calculateCRC (some [sa % 256, WRITE_ONE, hiByte st, loByte st,
             hiByte (vals.headD 0), loByte (vals.headD 0)]))]
      ∧ (writeRequestFrame sa st vals).length = 8)
    ∧ (1 < vals.length →
        writeRequestFrame sa st vals
          = ([sa % 256, WRITE_RANGE, hiByte st, loByte st, hiByte vals.length,
              loByte vals.length, vals.length * 2] ++ beBytes vals)
            ++ [loByte (calculateCRC (some ([sa % 256, WRITE_RANGE, hiByte st, loByte st,
                  hiByte vals.length, loByte vals.length, vals.length * 2] ++ beBytes vals))),
                hiByte (calculateCRC (some ([sa % 256, WRITE_RANGE, hiByte st, loByte st,
                  hiByte vals.length, loByte vals.length, vals.length * 2] ++ beBytes vals)))]
        ∧ (writeRequestFrame sa st vals).length = 9 + vals.length * 2
        ∧ (writeRequestFrame sa st vals).getD 6 0 = vals.length * 2
        ∧ (∀ i, i < vals.length →
            (writeRequestFrame sa st vals).getD (7 + i * 2) 0 = hiByte (vals.getD i 0)
            ∧ (writeRequestFrame sa st vals).getD (7 + i * 2 + 1) 0
                = loByte (vals.getD i 0))) := by
  have hmod : vals.length * 2 % 256 = vals.length * 2 := Nat.mod_eq_of_lt (by omega)
  constructor
  · intro hone
    rw [writeRequestFrame, if_pos hone]
    exact ⟨rfl, rfl⟩
  · intro hmulti
    have hne : vals.length ≠ 1 := by omega
    have hlt : ∀ j, j < vals.length * 2 → j < (beBytes vals).length := by
      intro j hj
      rw [beBytes_length]
      omega
    refine ⟨?_, ?_, ?_, ?_⟩
    · rw [writeRequestFrame, if_neg hne, appendCRC, hmod]
    · rw [writeRequestFrame, if_neg hne, appendCRC, hmod]
      simp only [List.length_append, List.length_cons, List.length_nil, beBytes_length]
      omega
    · rw [writeRequestFrame, if_neg hne, appendCRC, hmod]
      have e6 : (6 : Nat) = 0 + 1 + 1 + 1 + 1 + 1 + 1 := by omega
      rw [e6]
      simp only [List.cons_append, List.nil_append, List.getD_cons_succ, List.getD_cons_zero]
    · intro i hi
      constructor
      · rw [writeRequestFrame, if_neg hne, appendCRC, hmod]
        have e : 7 + i * 2 = i * 2 + 1 + 1 + 1 + 1 + 1 + 1 + 1 := by omega
        rw [e]
        simp only [List.cons_append, List.nil_append, List.getD_cons_succ]
        rw [getD_append_of_lt _ _ _ (hlt _ (by omega))]
        exact (beBytes_getD vals i hi).1
      · rw [writeRequestFrame, if_neg hne, appendCRC, hmod]
        have e : 7 + i * 2 + 1 = i * 2 + 1 + 1 + 1 + 1 + 1 + 1 + 1 + 1 := by omega
        rw [e]
        simp only [List.cons_append, List.nil_append, List.getD_cons_succ]
        rw [getD_append_of_lt _ _ _ (hlt _ (by omega))]
        exact (beBytes_getD vals i hi).2

/-- Witness for C7 at a two-register write: the big-endian encoding facts
for the first register of `writeRequestFrame 1 8192 [1, 2]`. -/
theorem writeRequestFrame_spec_witness :
    (writeRequestFrame 1 8192 [1, 2]).getD (7 + 0 * 2) 0
        = hiByte (([1, 2] : List Nat).getD 0 0)
    ∧ (writeRequestFrame 1 8192 [1, 2]).getD (7 + 0 * 2 + 1) 0
        = loByte (([1, 2] : List Nat).getD 0 0) :=
  ((writeRequestFrame_spec 1 8192 [1, 2] (by decide) (by decide) (by decide)).2
    (by decide)).2.2.2 0 (by decide)

theorem recvLoop_all (tt ct t0 : Nat) (bytes : List Nat) (h : bytes ≠ []) :
    recvLoop tt ct bytes.length [(t0, bytes)] t0 [] = bytes := by
  have hl : 0 < bytes.length := List.length_pos.mpr h
  rw [recvLoop]
  simp only [List.length_nil, Nat.sub_zero, Nat.sub_self, List.nil_append, Nat.min_self,
    List.take_length]
  rw [if_neg (by omega), if_neg (by omega), if_neg (by omega)]

theorem receiveData_all (ict tt t0 : Nat) (bytes : List Nat) (h : bytes ≠ []) :
    receiveData true bytes.length ict tt t0 [(t0, bytes)] = (bytes, true) := by
  unfold receiveData
  rw [if_neg (by simp [h])]
  simp only [recvLoop_all tt _ t0 bytes h, beq_self_eq_true]

theorem mkReadResponse_ne_nil (sa n : Nat) (vals : List Nat) :
    mkReadResponse sa n vals ≠ [] := by
  simp [mkReadResponse, appendCRC]

theorem mkReadResponse_length (sa n : Nat) (vals : List Nat) :
    (mkReadResponse sa n vals).length = 5 + vals.length * 2 := by
  simp only [mkReadResponse, appendCRC, List.length_append, List.length_cons,
    List.length_nil, beBytes_length]
  omega

theorem mkReadResponse_getD_head (sa n : Nat) (vals : List Nat) :
    (mkReadResponse sa n vals).getD 0 0 = sa % 256
    ∧ (mkReadResponse sa n vals).getD 1 0 = READ
    ∧ (mkReadResponse sa n vals).getD 2 0 = n * 2 := by
  refine ⟨rfl, rfl, rfl⟩

theorem decodePairs_mkReadResponse (sa : Nat) (vals : List Nat)
    (hb : ∀ v ∈ vals, v < 65536) :
    decodePairs (mkReadResponse sa vals.length vals) vals.length = vals := by
  apply List.ext_getElem
  · simp [decodePairs]
  intro i hi hi2
  have hiv : i < vals.length := hi2
  have hlt : ∀ j, j < vals.length * 2 → j < (beBytes vals).length := by
    intro j hj
    rw [beBytes_length]
    omega
  simp only [decodePairs, List.getElem_map, List.getElem_range]
  have hhi : (mkReadResponse sa vals.length vals).getD (3 + i * 2) 0
      = hiByte (vals.getD i 0) := by
    rw [mkReadResponse, appendCRC]
    have e : 3 + i * 2 = i * 2 + 1 + 1 + 1 := by omega
    rw [e]
    simp only [List.cons_append, List.nil_append, List.getD_cons_succ]
    rw [getD_append_of_lt _ _ _ (hlt _ (by omega))]
    exact (beBytes_getD vals i hiv).1
  have hlo : (mkReadResponse sa vals.length vals).getD (3 + i * 2 + 1) 0
      = loByte (vals.getD i 0) := by
    rw [mkReadResponse, appendCRC]
    have e : 3 + i * 2 + 1 = i * 2 + 1 + 1 + 1 + 1 := by omega
    rw [e]
    simp only [List.cons_append, List.nil_append, List.getD_cons_succ]
    rw [getD_append_of_lt _ _ _ (hlt _ (by omega))]
    exact (beBytes_getD vals i hiv).2
  have hgd : vals.getD i 0 = vals[i] := by
    rw [List.getD_eq_getElem?_getD, List.getElem?_eq_getElem hiv]
    rfl
  rw [hhi, hlo, hgd, crc_recombine _ (hb _ (List.getElem_mem _))]

/-- C6: for every count from 1 to 125 and every list of that many 16-bit
values, feeding `readParameters` a well-formed response (correct address,
function 0x03, byte count `count * 2`, the values big-endian from offset
3, valid trailing CRC) makes it return `true` and store exactly the
original values at the front of the caller's buffer, in ascending register
order. -/
theorem readParameters_roundtrip (pin tt ict sa st t0 n : Nat) (a vals : List Nat)
    (h1 : 1 ≤ n) (h2 : n ≤ 125) (hv : vals.length = n) (hb : ∀ v ∈ vals, v < 65536) :
    readParameters pin tt ict sa st (some a) n t0 [(t0, mkReadResponse sa n vals)]
      = (true, some (vals ++ a.drop n), sendData pin (readRequestFrame sa st n)) := by
  subst hv
  have hg := mkReadResponse_getD_head sa vals.length vals
  have hrecv := receiveData_all ict tt t0 (mkReadResponse sa vals.length vals)
    (mkReadResponse_ne_nil sa vals.length vals)
  rw [mkReadResponse_length] at hrecv
  have hblen : ([sa % 256, READ, vals.length * 2] ++ beBytes vals).length
      = 3 + vals.length * 2 := by
    simp only [List.length_append, List.length_cons, List.length_nil, beBytes_length]
    omega
  have hcrcf := calculateCRC_lt
    (some ([sa % 256, READ, vals.length * 2] ++ beBytes vals))
  have hhiD : (mkReadResponse sa vals.length vals).getD (5 + vals.length * 2 - 1) 0
      = hiByte (calculateCRC (some ([sa % 256, READ, vals.length * 2] ++ beBytes vals))) := by
    rw [mkReadResponse, appendCRC]
    have h := getD_append_add ([sa % 256, READ, vals.length * 2] ++ beBytes vals)
      [loByte (calculateCRC (some ([sa % 256, READ, vals.length * 2] ++ beBytes vals))),
       hiByte (calculateCRC (some ([sa % 256, READ, vals.length * 2] ++ beBytes vals)))] 1
    rw [hblen] at h
    rw [show 5 + vals.length * 2 - 1 = 3 + vals.length * 2 + 1 from by omega, h]
    rfl
  have hloD : (mkReadResponse sa vals.length vals).getD (5 + vals.length * 2 - 2) 0
      = loByte (calculateCRC (some ([sa % 256, READ, vals.length * 2] ++ beBytes vals))) := by
    rw [mkReadResponse, appendCRC]
    have h := getD_append_add ([sa % 256, READ, vals.length * 2] ++ beBytes vals)
      [loByte (calculateCRC (some ([sa % 256, READ, vals.length * 2] ++ beBytes vals))),
       hiByte (calculateCRC (some ([sa % 256, READ, vals.length * 2] ++ beBytes vals)))] 0
    rw [hblen] at h
    rw [show 5 + vals.length * 2 - 2 = 3 + vals.length * 2 + 0 from by omega, h]
    rfl
  have htake : (mkReadResponse sa vals.length vals).take ((5 + vals.length * 2 - 2) % 256)
      = [sa % 256, READ, vals.length * 2] ++ beBytes vals := by
    rw [mkReadResponse, appendCRC,
        show (5 + vals.length * 2 - 2) % 256 = 3 + vals.length * 2 from by omega]
    exact List.take_left' hblen
  unfold readParameters
  rw [if_neg ?hguard, if_neg (by omega)]
  case hguard =>
    rintro (hc | hc)
    · simp at hc
    · omega
  dsimp only
  rw [hrecv]
  dsimp only
  rw [if_neg (by simp)]
  rw [if_neg (by rw [hg.1, hg.2.1]; simp)]
  rw [if_neg (by rw [hg.2.2]; simp)]
  rw [hhiD, hloD, htake,
      crc_recombine _ hcrcf]
  rw [if_neg (by simp)]
  rw [decodePairs_mkReadResponse sa vals hb]
  simp [storeFront]

/-- Witness for C6: the spec's scenario — three registers read back from a
synthetic valid response at start address 0x1000 yield the original three
values. -/
theorem readParameters_roundtrip_witness :
    readParameters 2 2000 3645 1 4096 (some [0, 0, 0]) 3 0 [(0, mkReadResponse 1 3 [7, 8, 9])]
      = (true, some ([7, 8, 9] ++ ([0, 0, 0] : List Nat).drop 3),
         sendData 2 (readRequestFrame 1 4096 3)) :=
  readParameters_roundtrip 2 2000 3645 1 4096 0 3 [0, 0, 0] [7, 8, 9]
    (by decide) (by decide) (by decide) (by decide)

end HS321
